import Mathlib

/-!
Shallow embedding of the metabo-explorer enrichment pipeline
(`src/enrichment/01CLASSYFIRE/enrich-classyfire.py`,
`src/enrichment/02NPCLASSIFIER/enrich-np-classifier.py`,
`src/enrichment/03LIPIDMAPS/enrich-lipidmaps.py`) and proofs about it.

Conventions used throughout:
* Python `None` is `Option.none`; a JSON value is `JValue` with `JValue.null`.
* Python `str.strip()` is `pyStrip` (drop leading and trailing whitespace).
* Python truthiness of a string (`if s:`) is `strTruthy` (non-emptiness).
* Network traffic is modelled by oracles: a function from the request key to
  the response the remote service would give.  Sleeps are recorded as a list
  of rational durations in seconds.
-/

namespace Metabo

/-! ### Python string primitives -/

/-- Characters of `s.strip()`: drop leading and trailing whitespace. -/
def pyStripChars (l : List Char) : List Char :=
  (l.dropWhile Char.isWhitespace).rdropWhile Char.isWhitespace

/-- Python `s.strip()`. -/
def pyStrip (s : String) : String :=
  String.mk (pyStripChars s.data)

/-- Python truthiness of a string: `bool(s)` is `s ≠ ""`. -/
def strTruthy (s : String) : Bool :=
  !s.data.isEmpty

/-- Blankness: `s.strip()` is falsy. -/
def pyBlank (s : String) : Bool :=
  (pyStripChars s.data).isEmpty

/-- Normalisation used all over ingestion: an element text is kept only if
present and non-blank after stripping; the stripped text is stored, otherwise
the absent marker.  Models
`element.text.strip() if element is not None and element.text and element.text.strip() else None`. -/
def normText : Option String → Option String
  | none => none
  | some s => if pyBlank s then none else some (pyStrip s)

/-- A string with no leading and no trailing whitespace. -/
def NoEdgeWS (s : String) : Prop :=
  (∀ c, s.data.head? = some c → c.isWhitespace = false) ∧
  (∀ c, s.data.getLast? = some c → c.isWhitespace = false)

/-! ### Classifier A (ClassyFire) client: `fetch_classyfire_taxonomy` -/

/-- A JSON sub-object of the ClassyFire response carrying a `name` field. -/
structure NameObj where
  name : Option String
deriving DecidableEq

/-- The parsed body of a ClassyFire `200` response.  A level is `none` when the
corresponding key is absent or falsy (`data.get("kingdom")` evaluating false). -/
structure ClassyData where
  kingdom : Option NameObj
  superclass : Option NameObj
  «class» : Option NameObj
  subclass : Option NameObj
  direct_parent : Option NameObj
deriving DecidableEq

/-- The 5-level taxonomy record built by the ClassyFire client. -/
structure Taxonomy5 where
  kingdom : Option String
  super_class : Option String
  «class» : Option String
  sub_class : Option String
  direct_parent : Option String
deriving DecidableEq

/-- The dictionary returned by `fetch_classyfire_taxonomy` on HTTP 200:
`data.get(level, {}).get("name") if data.get(level) else None` per level. -/
def taxonomyOfData (d : ClassyData) : Taxonomy5 :=
  ⟨d.kingdom.bind NameObj.name,
   d.superclass.bind NameObj.name,
   d.«class».bind NameObj.name,
   d.subclass.bind NameObj.name,
   d.direct_parent.bind NameObj.name⟩

/-- What one `requests.get` call yields: a response with a status code and a
(parsed) body, or a `requests.RequestException`. -/
inductive HttpEvent where
  | resp (code : Nat) (data : ClassyData)
  | exn
deriving DecidableEq

/-- Observable outcome of `fetch_classyfire_taxonomy`: the returned value, the
sleeps performed (in seconds) and the number of HTTP request attempts made. -/
structure FetchResult where
  result : Option Taxonomy5
  sleeps : List ℚ
  requests : Nat
deriving DecidableEq

/-- Default `max_retries` of `fetch_classyfire_taxonomy`. -/
def MAX_RETRIES : Nat := 5

/-- The retry loop `for attempt in range(max_retries)` of
`fetch_classyfire_taxonomy`, with `events n` the outcome of the `n`-th HTTP
request.  On 200: sleep 0.1s and return the parsed taxonomy.  On 429: sleep
`min(0.5 * 2**attempt, 1.5)` and retry.  On any other status: return `None`
immediately.  On a `RequestException`: sleep 1s and retry.  Falling off the
loop returns `None`. -/
def fetchGo (events : Nat → HttpEvent) : Nat → Nat → FetchResult
  | _, 0 => ⟨none, [], 0⟩
  | attempt, fuel + 1 =>
    match events attempt with
    | .resp code data =>
      if code = 200 then
        ⟨some (taxonomyOfData data), [(1 : ℚ) / 10], 1⟩
      else if code = 429 then
        let rest := fetchGo events (attempt + 1) fuel
        ⟨rest.result, min ((1 : ℚ) / 2 * 2 ^ attempt) (3 / 2) :: rest.sleeps,
         rest.requests + 1⟩
      else
        ⟨none, [], 1⟩
    | .exn =>
      let rest := fetchGo events (attempt + 1) fuel
      ⟨rest.result, (1 : ℚ) :: rest.sleeps, rest.requests + 1⟩

/-- Model of `fetch_classyfire_taxonomy(inchikey)` for a given network behaviour. -/
def fetch_classyfire_taxonomy (events : Nat → HttpEvent) : FetchResult :=
  fetchGo events 0 MAX_RETRIES

/-! ### Ingestion: `parse_metabolite` -/

/-- The fixed scalar field list of `parse_metabolite`. -/
def key_order : List String :=
  ["accession", "status", "name", "description", "chemical_formula",
   "average_molecular_weight", "iupac_name", "smiles", "inchikey",
   "pubchem_compound_id", "chebi_id", "wikipedia_id"]

/-- The `biological_properties` XML sub-tree: each location container is
either absent or a list of child elements, each child text being `none`
(missing text) or a raw string. -/
structure XmlBio where
  cellular_locations : Option (List (Option String))
  biospecimen_locations : Option (List (Option String))
  tissue_locations : Option (List (Option String))

/-- One `<metabolite>` XML element, abstracted to what `parse_metabolite`
reads from it: the text found for each scalar field name (`none` when the
element is missing or has no text), the `taxonomy` sub-tree (a lookup from
level name to raw text) when present, and the biological-properties sub-tree
when present. -/
structure XmlMetabolite where
  scalars : String → Option String
  taxonomy : Option (String → Option String)
  biological_properties : Option XmlBio

/-- Taxonomy levels extracted from the `taxonomy` sub-tree: all `none` when
the sub-tree is absent, otherwise each normalised text of each level. -/
def extractTax : Option (String → Option String) → Taxonomy5
  | none => ⟨none, none, none, none, none⟩
  | some lvl =>
    ⟨normText (lvl "kingdom"), normText (lvl "super_class"),
     normText (lvl "class"), normText (lvl "sub_class"),
     normText (lvl "direct_parent")⟩

/-- Test `all(not v for v in taxonomy_data.values())`: every level still absent. -/
def allBlank (t : Taxonomy5) : Bool :=
  t.kingdom.isNone && t.super_class.isNone && t.«class».isNone &&
    t.sub_class.isNone && t.direct_parent.isNone

/-- Guard `if inchikey and inchikey != "NONE"` on the normalised inchikey value. -/
def inchikeyEligible : Option String → Bool
  | none => false
  | some s => strTruthy s && (s != "NONE")

/-- One location list of `parse_metabolite`: keep the stripped texts of the
non-blank children; an empty result collapses to the absent marker
(`cells if cells else None`). -/
def locList : Option (List (Option String)) → Option (List String)
  | none => none
  | some xs =>
    let ys := xs.filterMap normText
    if ys.isEmpty then none else some ys

/-- The record built by `parse_metabolite`, plus the observation whether the
ClassyFire client was invoked while building it. -/
structure ParsedMetabolite where
  data : String → Option String
  taxonomy : Taxonomy5
  cellular_locations : Option (List String)
  biospecimen_locations : Option (List String)
  tissue_locations : Option (List String)
  calledClassy : Bool

/-- Model of `parse_metabolite`, with `classy` the behaviour of
`fetch_classyfire_taxonomy` (`none` = the client returned `None`).  Scalar
fields are normalised; if every extracted taxonomy level is blank and the
normalised inchikey is truthy and not `"NONE"`, the ClassyFire client is
called and a truthy (dict) result replaces the whole taxonomy; the three
location lists are extracted when `biological_properties` is present. -/
def parse_metabolite (classy : String → Option Taxonomy5) (m : XmlMetabolite) :
    ParsedMetabolite :=
  let data : String → Option String :=
    fun k => if k ∈ key_order then normText (m.scalars k) else none
  let tax0 := extractTax m.taxonomy
  let ik := data "inchikey"
  let taxCalled : Taxonomy5 × Bool :=
    if allBlank tax0 then
      if inchikeyEligible ik then
        match ik with
        | some s =>
          match classy s with
          | some ct => (ct, true)
          | none => (tax0, true)
        | none => (tax0, false)
      else (tax0, false)
    else (tax0, false)
  let bio : Option (List String) × Option (List String) × Option (List String) :=
    match m.biological_properties with
    | some b =>
      (locList b.cellular_locations, locList b.biospecimen_locations,
       locList b.tissue_locations)
    | none => (none, none, none)
  ⟨data, taxCalled.1, bio.1, bio.2.1, bio.2.2, taxCalled.2⟩

/-! ### NP Classifier (Classifier B): `classify` and the slot-array loop -/

/-- JSON values as loaded by `json.load` (numbers kept as integers: no claim
depends on fractional numerics). -/
inductive JValue where
  | null
  | str (s : String)
  | num (n : Int)
  | list (xs : List JValue)
  | obj (fields : List (String × JValue))

/-- First-match association-list lookup, the dict lookup of the embedding. -/
def alookup {α : Type} : List (String × α) → String → Option α
  | [], _ => none
  | (k, v) :: rest, key => if k = key then some v else alookup rest key

/-- Python `d.get(k, dflt)`. -/
def jgetD (fields : List (String × JValue)) (k : String) (dflt : JValue) : JValue :=
  (alookup fields k).getD dflt

/-- Python `d.get(k)` (default `None`). -/
def jget (fields : List (String × JValue)) (k : String) : JValue :=
  jgetD fields k .null

/-- Python `d[k] = v`: overwrite in place if the key exists, else append. -/
def objSet (fields : List (String × JValue)) (key : String) (v : JValue) :
    List (String × JValue) :=
  match fields with
  | [] => [(key, v)]
  | (k, w) :: rest =>
    if k = key then (k, v) :: rest else (k, w) :: objSet rest key v

/-- The single-quote character, for Python `repr` of strings. -/
def squote : String := String.singleton (Char.ofNat 39)

mutual

/-- Python `repr` of a JSON value (approximate: string escaping is not
modelled; only reachable in log text). -/
def pyRepr : JValue → String
  | .null => "None"
  | .str s => squote ++ s ++ squote
  | .num n => toString n
  | .list xs => "[" ++ pyReprSeq xs ++ "]"
  | .obj fs => "\x7b" ++ pyReprObj fs ++ "\x7d"

/-- Comma-separated `repr`s of list items. -/
def pyReprSeq : List JValue → String
  | [] => ""
  | [x] => pyRepr x
  | x :: y :: rest => pyRepr x ++ ", " ++ pyReprSeq (y :: rest)

/-- Comma-separated `repr`s of dict items. -/
def pyReprObj : List (String × JValue) → String
  | [] => ""
  | [(k, v)] => squote ++ k ++ squote ++ ": " ++ pyRepr v
  | (k, v) :: q :: rest =>
    squote ++ k ++ squote ++ ": " ++ pyRepr v ++ ", " ++ pyReprObj (q :: rest)

end

/-- Python `str` of a JSON value, as interpolated into f-strings. -/
def pyStr : JValue → String
  | .str s => s
  | v => pyRepr v

/-- The all-absent NP taxonomy
`{"pathway": None, "super_class": None, "class": None}`. -/
def npAllNone : JValue :=
  .obj [("pathway", .null), ("super_class", .null), ("class", .null)]

/-- Conversion `unwrap`: first element of a list (absent if empty), anything else
unchanged. -/
def unwrap : JValue → JValue
  | .list [] => .null
  | .list (x :: _) => x
  | v => v

/-- Outcome of the one NPClassifier HTTP request `classify` may issue. -/
inductive NPOutcome where
  | ok (body : List (String × JValue))
  | httpError (code : Nat)
  | exn (msg : String)

/-- The tuple `(index, entry, log_line, success)` returned by `classify`,
plus the observation whether a network request was issued. -/
structure ClassifyResult where
  index : Nat
  entry : JValue
  logLine : String
  success : Bool
  requested : Bool

/-- Model of `classify(index, entry)` with `oracle` the NPClassifier service behaviour
(keyed by the stripped SMILES; URL-encoding is injective so it is dropped)
and `ts` the `timestamp()` text that starts log lines. -/
def classify (oracle : String → NPOutcome) (ts : String) (index : Nat)
    (entry : JValue) : ClassifyResult :=
  match entry with
  | .obj fields =>
    let accession := pyStr (jgetD fields "accession" (.str ("INDEX_" ++ toString index)))
    match jget fields "smiles" with
    | .str s =>
      if pyBlank s then
        ⟨index, .obj (objSet fields "np_taxonomy" npAllNone),
         ts ++ " " ++ accession ++ ": No valid SMILES (null or empty)",
         false, false⟩
      else
        match oracle (pyStrip s) with
        | .ok body =>
          ⟨index,
           .obj (objSet fields "np_taxonomy"
             (.obj [("pathway", unwrap (jget body "pathway_results")),
                    ("super_class", unwrap (jget body "superclass_results")),
                    ("class", unwrap (jget body "class_results"))])),
           "", true, true⟩
        | .httpError code =>
          ⟨index, .obj (objSet fields "np_taxonomy" npAllNone),
           ts ++ " " ++ accession ++ ": HTTP error " ++ toString code,
           false, true⟩
        | .exn msg =>
          ⟨index, .obj (objSet fields "np_taxonomy" npAllNone),
           ts ++ " " ++ accession ++ ": Exception - " ++ msg,
           false, true⟩
    | _ =>
      ⟨index, .obj (objSet fields "np_taxonomy" npAllNone),
       ts ++ " " ++ accession ++ ": No valid SMILES (null or empty)",
       false, false⟩
  | _ =>
    ⟨index, .obj [("np_taxonomy", npAllNone)],
     ts ++ " Index " ++ toString index ++ ": entry is not a dict",
     false, false⟩

/-- One completed future: look up the submitted entry, run `classify`, and
write the returned entry into the slot named by the returned index. -/
def npStep (oracle : String → NPOutcome) (ts : String)
    (metabolites : List JValue) (results : List (Option JValue)) (i : Nat) :
    List (Option JValue) :=
  match metabolites[i]? with
  | some e =>
    let r := classify oracle ts i e
    results.set r.index (some r.entry)
  | none => results

/-- The `__main__` slot-array loop: `results = [None] * len(metabolites)`,
then each result of each future written into its slot, in completion order
`order`. -/
def runNPStage (oracle : String → NPOutcome) (ts : String)
    (metabolites : List JValue) (order : List Nat) : List (Option JValue) :=
  order.foldl (npStep oracle ts metabolites)
    (List.replicate metabolites.length none)

/-! ### Matcher (LIPID MAPS): index build and match loop -/

/-- The property bundle stored per reference entry (`lipid_entry`). -/
structure LipidEntry where
  lm_id : Option String
  category : Option String
  main_class : Option String
  sub_class : Option String
  smiles : Option String
  pubchem : Option String
  chebi : Option String
  name : Option String
  formula : Option String
  systematic_name : Option String
deriving DecidableEq

/-- One molecule record of the SDF file: `GetProp` results (`none` when the
property is missing). -/
structure Mol where
  inchikey : Option String
  lm_id : Option String
  category : Option String
  main_class : Option String
  sub_class : Option String
  smiles : Option String
  pubchem : Option String
  chebi : Option String
  name : Option String
  formula : Option String
  systematic_name : Option String
deriving DecidableEq

/-- The `lipid_entry` dict built from a molecule. -/
def lipidEntryOf (m : Mol) : LipidEntry :=
  ⟨m.lm_id, m.category, m.main_class, m.sub_class, m.smiles, m.pubchem,
   m.chebi, m.name, m.formula, m.systematic_name⟩

/-- Store `lipid_data` and the six `index_maps`: assoc lists, with `lipid_data`
prepended on insert so that lookup sees the latest binding
(dict-overwrite semantics). -/
structure RefIndex where
  lipid_data : List (String × LipidEntry)
  pubchem : List (String × List String)
  chebi : List (String × List String)
  name : List (String × List String)
  formula : List (String × List String)
  systematic_name : List (String × List String)
  smiles : List (String × List String)
deriving DecidableEq

def emptyIndex : RefIndex := ⟨[], [], [], [], [], [], []⟩

/-- Insertion `index_maps[key].setdefault(val, []).append(inchikey)`. -/
def mapAppend (m : List (String × List String)) (v k : String) :
    List (String × List String) :=
  match m with
  | [] => [(v, [k])]
  | (w, ks) :: rest =>
    if w = v then (w, ks ++ [k]) :: rest else (w, ks) :: mapAppend rest v k

/-- Guarded insertion `if val: index_maps[key].setdefault(val, []).append(inchikey)`. -/
def indexField (m : List (String × List String)) (v : Option String)
    (ik : String) : List (String × List String) :=
  match v with
  | some s => if strTruthy s then mapAppend m s ik else m
  | none => m

/-- Processing one molecule of the SDF stream: skip it if its `INCHI_KEY` is
missing or falsy, else store its bundle under the inchikey and index its
truthy identifier values. -/
def insertMol (ix : RefIndex) (mol : Mol) : RefIndex :=
  match mol.inchikey with
  | none => ix
  | some ik =>
    if strTruthy ik then
      let e := lipidEntryOf mol
      ⟨(ik, e) :: ix.lipid_data,
       indexField ix.pubchem e.pubchem ik,
       indexField ix.chebi e.chebi ik,
       indexField ix.name e.name ik,
       indexField ix.formula e.formula ik,
       indexField ix.systematic_name e.systematic_name ik,
       indexField ix.smiles e.smiles ik⟩
    else ix

/-- The whole SDF build phase. -/
def buildIndexes (mols : List Mol) : RefIndex :=
  mols.foldl insertMol emptyIndex

/-- The identifier fields the match loop reads from a metabolite entry. -/
structure Metabolite where
  accession : Option String
  inchikey : Option String
  smiles : Option String
  pubchem_cid : Option String
  chebi_id : Option String
  name : Option String
  chemical_formula : Option String
  iupac_name : Option String
deriving DecidableEq

/-- The `criteria` list and `possible_keys` accumulated by the fallback
(`possible_keys` kept as the concatenation of the contributing index lists;
the set cardinality of the Python code is its deduplicated length). -/
structure FallbackAcc where
  criteria : List String
  possible_keys : List String
deriving DecidableEq

/-- Test `if value and value in index_maps[key]`: the contributing key list, if
the identifier is truthy and present in the index. -/
def contrib (m : List (String × List String)) : Option String → Option (List String)
  | some s => if strTruthy s then alookup m s else none
  | none => none

/-- Union in one contribution of one criterion. -/
def addCrit (acc : FallbackAcc) (cname : String) : Option (List String) → FallbackAcc
  | some ks => ⟨acc.criteria ++ [cname], acc.possible_keys ++ ks⟩
  | none => acc

/-- The six fallback criteria, evaluated in the order of the source. -/
def fallbackAcc (ix : RefIndex) (e : Metabolite) : FallbackAcc :=
  let a1 := addCrit ⟨[], []⟩ "PUBCHEM_CID" (contrib ix.pubchem e.pubchem_cid)
  let a2 := addCrit a1 "NAME" (contrib ix.name e.name)
  let a3 := addCrit a2 "CHEBI_ID" (contrib ix.chebi e.chebi_id)
  let a4 := addCrit a3 "FORMULA" (contrib ix.formula e.chemical_formula)
  let a5 := addCrit a4 "SYSTEMATIC_NAME" (contrib ix.systematic_name e.iupac_name)
  addCrit a5 "SMILES" (contrib ix.smiles e.smiles)

/-- The per-entry match outcome: the matched reference bundle (if any), the
`reason` string, and whether the ambiguous-error branch fired. -/
structure MatchResult where
  matched : Option LipidEntry
  reason : String
  ambiguous : Bool
deriving DecidableEq

/-- The fallback part of the match loop. -/
def fallbackMatch (ix : RefIndex) (e : Metabolite) : MatchResult :=
  let acc := fallbackAcc ix e
  let distinct := acc.possible_keys.dedup
  if 2 ≤ acc.criteria.length ∧ distinct.length = 1 then
    match distinct.head? with
    | some k =>
      ⟨alookup ix.lipid_data k,
       "fallback match by: " ++ String.intercalate ", " acc.criteria, false⟩
    | none => ⟨none, "no match", false⟩
  else if 2 ≤ acc.criteria.length ∧ 1 < distinct.length then
    ⟨none, "no match", true⟩
  else
    ⟨none, "no match", false⟩

/-- The whole per-entry match: primary `INCHI_KEY` hit short-circuits,
otherwise run the fallback. -/
def matchEntry (ix : RefIndex) (e : Metabolite) : MatchResult :=
  match e.inchikey with
  | some k =>
    if strTruthy k then
      match alookup ix.lipid_data k with
      | some ent => ⟨some ent, "matched by INCHI_KEY", false⟩
      | none => fallbackMatch ix e
    else fallbackMatch ix e
  | none => fallbackMatch ix e

/-- Test `if inchi_key and inchi_key in lipid_data`. -/
def primaryHit (ix : RefIndex) (e : Metabolite) : Bool :=
  match e.inchikey with
  | some k => strTruthy k && (alookup ix.lipid_data k).isSome
  | none => false

/-- The `lm_id` / `lm_taxonomy` fields written into the entry. -/
structure LMFields where
  lm_id : Option String
  category : Option String
  main_class : Option String
  sub_class : Option String
deriving DecidableEq

/-- Writing the match outcome into the entry: the matched fields of the bundle, or
all-absent on no match. -/
def applyMatch (r : MatchResult) : LMFields :=
  match r.matched with
  | some m => ⟨m.lm_id, m.category, m.main_class, m.sub_class⟩
  | none => ⟨none, none, none, none⟩

/-- The run counters `matches` / `misses` / `errors`. -/
structure MatchStats where
  «matches» : Nat
  misses : Nat
  errors : Nat
deriving DecidableEq

/-- Counter updates for one entry: `errors += 1` when the ambiguous branch
fired, then `matches += 1` if a match was found else `misses += 1`. -/
def stepStats (ix : RefIndex) (s : MatchStats) (e : Metabolite) : MatchStats :=
  let r := matchEntry ix e
  let s1 := if r.ambiguous then ⟨s.«matches», s.misses, s.errors + 1⟩ else s
  match r.matched with
  | some _ => ⟨s1.«matches» + 1, s1.misses, s1.errors⟩
  | none => ⟨s1.«matches», s1.misses + 1, s1.errors⟩

/-- The counters after the whole match loop. -/
def runStats (ix : RefIndex) (ms : List Metabolite) : MatchStats :=
  ms.foldl (stepStats ix) ⟨0, 0, 0⟩

/-! ### Concrete sample inputs used by witnesses and counterexamples -/

/-- A reference molecule with inchikey `"K1"`, name `"Foo"`,
formula `"C6H12O6"`. -/
def molK1 : Mol :=
  ⟨some "K1", some "LM1", some "Fatty Acyls", some "FA01", some "FA0101",
   none, none, none, some "Foo", some "C6H12O6", none⟩

/-- A second reference molecule sharing name and formula with `molK1` but
with a different inchikey. -/
def molK2 : Mol :=
  ⟨some "K2", some "LM2", some "Glycerolipids", some "GL01", some "GL0101",
   none, none, none, some "Foo", some "C6H12O6", none⟩

/-- A metabolite whose name and formula both collide between `molK1` and
`molK2`, with no usable inchikey. -/
def entryAmbiguous : Metabolite :=
  ⟨some "HMDB0000001", none, none, none, none, some "Foo", some "C6H12O6", none⟩

/-- A metabolite carrying the primary key `"K1"` and the colliding name. -/
def entryPrimary : Metabolite :=
  ⟨some "HMDB0000002", some "K1", none, none, none, some "Foo",
   some "C6H12O6", none⟩

/-- A metabolite matching `molK1` only via name and formula. -/
def entryFallback : Metabolite :=
  ⟨some "HMDB0000003", none, none, none, none, some "Foo", some "C6H12O6", none⟩

/-- A reference list where name `"Foo"` and formula `"C6H12O6"` are ambiguous
between two entries. -/
def molsAmbig : List Mol := [molK1, molK2]

/-- A reference list with a single entry. -/
def molsSingle : List Mol := [molK1]

/-- A ClassyFire behaviour that always fails. -/
def classyNone : String → Option Taxonomy5 := fun _ => none

/-- A metabolite element with a valid inchikey but NO taxonomy sub-tree. -/
def xmlNoTax : XmlMetabolite :=
  ⟨fun k => if k = "inchikey" then some "ABC" else none, none, none⟩

/-- A metabolite element with an embedded taxonomy (one level set). -/
def xmlWithTax : XmlMetabolite :=
  ⟨fun k => if k = "inchikey" then some "ABC" else none,
   some (fun f => if f = "kingdom" then some "Organic compounds" else none),
   none⟩

/-! ### Properties used in theorem statements -/

/-- Every hash key stored in an index map is a key of `lipid_data`. -/
def IdxOk (d : List (String × LipidEntry))
    (m : List (String × List String)) : Prop :=
  ∀ p ∈ m, ∀ k ∈ p.2, (alookup d k).isSome

/-- Well-formedness of a built `RefIndex`: `lipid_data` keys are truthy and
all six index maps only hold keys of `lipid_data`. -/
structure InvIndex (ix : RefIndex) : Prop where
  keysTruthy : ∀ p ∈ ix.lipid_data, strTruthy p.1 = true
  pubchemOk : IdxOk ix.lipid_data ix.pubchem
  chebiOk : IdxOk ix.lipid_data ix.chebi
  nameOk : IdxOk ix.lipid_data ix.name
  formulaOk : IdxOk ix.lipid_data ix.formula
  systematicOk : IdxOk ix.lipid_data ix.systematic_name
  smilesOk : IdxOk ix.lipid_data ix.smiles

/-- A hash key occurs in one of the six index maps. -/
def InIdx (ix : RefIndex) (k : String) : Prop :=
  (∃ p ∈ ix.pubchem, k ∈ p.2) ∨ (∃ p ∈ ix.chebi, k ∈ p.2) ∨
  (∃ p ∈ ix.name, k ∈ p.2) ∨ (∃ p ∈ ix.formula, k ∈ p.2) ∨
  (∃ p ∈ ix.systematic_name, k ∈ p.2) ∨ (∃ p ∈ ix.smiles, k ∈ p.2)

/-- An ingested optional scalar: absent, or a non-empty string with no
whitespace at either edge. -/
def ScalarOk (v : Option String) : Prop :=
  v = none ∨ ∃ s, v = some s ∧ s ≠ "" ∧ NoEdgeWS s

/-- An ingested location list: absent, or a non-empty list of non-empty
edge-trimmed strings. -/
def LocOk (v : Option (List String)) : Prop :=
  v = none ∨ ∃ l, v = some l ∧ l ≠ [] ∧ ∀ s ∈ l, s ≠ "" ∧ NoEdgeWS s

/-! ## Theorems -/

/-- The loop makes at most `fuel` HTTP requests. -/
theorem fetchGo_requests_le (events : Nat → HttpEvent) :
    ∀ (f a : Nat), (fetchGo events a f).requests ≤ f := by
  intro f
  induction f with
  | zero => intro a; simp [fetchGo]
  | succ f ih =>
    intro a
    simp only [fetchGo]
    cases h : events a with
    | resp code data =>
      by_cases h200 : code = 200
      · simp [h200]
      · by_cases h429 : code = 429
        · simp only [h200, if_false, h429, if_true]
          exact Nat.succ_le_succ (ih (a + 1))
        · simp [h200, h429]
    | exn => exact Nat.succ_le_succ (ih (a + 1))

/-- C4: the ClassyFire client makes at most 5 request attempts; on HTTP 429
it sleeps `min(0.5 * 2^attempt, 1.5)` seconds and retries; on any other
non-200 status it returns the absent result immediately; on a network-level
exception it sleeps 1 second and retries; an exhausted loop returns the
absent result. -/
theorem C4_classifier_retry_policy (events : Nat → HttpEvent) :
    (fetch_classyfire_taxonomy events).requests ≤ MAX_RETRIES ∧
    (∀ a f d, events a = HttpEvent.resp 429 d →
      fetchGo events a (f + 1) =
        ⟨(fetchGo events (a + 1) f).result,
         min ((1 : ℚ) / 2 * 2 ^ a) (3 / 2) :: (fetchGo events (a + 1) f).sleeps,
         (fetchGo events (a + 1) f).requests + 1⟩) ∧
    (∀ a f c d, events a = HttpEvent.resp c d → c ≠ 200 → c ≠ 429 →
      fetchGo events a (f + 1) = ⟨none, [], 1⟩) ∧
    (∀ a f, events a = HttpEvent.exn →
      fetchGo events a (f + 1) =
        ⟨(fetchGo events (a + 1) f).result,
         (1 : ℚ) :: (fetchGo events (a + 1) f).sleeps,
         (fetchGo events (a + 1) f).requests + 1⟩) ∧
    (∀ a, fetchGo events a 0 = ⟨none, [], 0⟩) := by
  refine ⟨fetchGo_requests_le events MAX_RETRIES 0, ?_, ?_, ?_, ?_⟩
  · intro a f d h
    simp [fetchGo, h]
  · intro a f c d h h200 h429
    simp [fetchGo, h, h200, h429]
  · intro a f h
    simp [fetchGo, h]
  · intro a
    simp [fetchGo]

/-- Witness for C4 at a concrete network behaviour (a permanent exception):
the first attempt sleeps one second, retries, and a fuel-1 loop returns the
absent result after its single attempt. -/
theorem C4_classifier_retry_policy_witness :
    (fetch_classyfire_taxonomy (fun _ => HttpEvent.exn)).requests ≤ MAX_RETRIES ∧
    fetchGo (fun _ => HttpEvent.exn) 0 1 = ⟨none, [(1 : ℚ)], 1⟩ := by
  have h := C4_classifier_retry_policy (fun _ => HttpEvent.exn)
  refine ⟨h.1, ?_⟩
  rw [h.2.2.2.1 0 0 rfl, h.2.2.2.2 1]

/-- C8: when the `smiles` field of a dict entry is missing, not a string, or
blank after trimming, `classify` assigns the all-absent NP taxonomy, returns
a failure outcome with the "No valid SMILES" log line, and issues no network
request. -/
theorem C8_invalid_smiles (oracle : String → NPOutcome) (ts : String) (i : Nat)
    (fields : List (String × JValue))
    (h : ∀ s, jget fields "smiles" = JValue.str s → pyBlank s = true) :
    classify oracle ts i (.obj fields) =
      ⟨i, .obj (objSet fields "np_taxonomy" npAllNone),
       ts ++ " " ++ pyStr (jgetD fields "accession" (.str ("INDEX_" ++ toString i))) ++
         ": No valid SMILES (null or empty)",
       false, false⟩ := by
  simp only [classify]
  cases hs : jget fields "smiles" with
  | str s => simp [h s hs]
  | null => rfl
  | num n => rfl
  | list xs => rfl
  | obj fs => rfl

/-- Witness for C8: a concrete entry whose `smiles` is JSON `null`. -/
theorem C8_invalid_smiles_witness :
    classify (fun _ => NPOutcome.httpError 500) "[t]" 7
        (.obj [("accession", .str "HMDB0"), ("smiles", .null)]) =
      ⟨7, .obj [("accession", .str "HMDB0"), ("smiles", .null),
                ("np_taxonomy", npAllNone)],
       "[t] HMDB0: No valid SMILES (null or empty)", false, false⟩ := by
  have h := C8_invalid_smiles (fun _ => NPOutcome.httpError 500) "[t]" 7
    [("accession", .str "HMDB0"), ("smiles", .null)]
    (by intro s hs; simp [jget, jgetD, alookup] at hs)
  rw [h]
  rfl

/-- C9: `unwrap` takes a non-empty list to its head, the empty list to the
absent marker, and any non-list value (including the absent marker) to
itself; on an HTTP 200 response, `classify` assigns each of the three result
fields through exactly `unwrap`. -/
theorem C9_unwrap (oracle : String → NPOutcome) (ts : String) (i : Nat) :
    (∀ (x : JValue) (xs : List JValue), unwrap (.list (x :: xs)) = x) ∧
    unwrap (.list []) = .null ∧
    (∀ v : JValue, (∀ xs, v ≠ .list xs) → unwrap v = v) ∧
    (∀ (fields body : List (String × JValue)) (s : String),
      jget fields "smiles" = JValue.str s → pyBlank s = false →
      oracle (pyStrip s) = .ok body →
      classify oracle ts i (.obj fields) =
        ⟨i, .obj (objSet fields "np_taxonomy"
             (.obj [("pathway", unwrap (jget body "pathway_results")),
                    ("super_class", unwrap (jget body "superclass_results")),
                    ("class", unwrap (jget body "class_results"))])),
         "", true, true⟩) := by
  refine ⟨fun x xs => rfl, rfl, ?_, ?_⟩
  · intro v hv
    cases v with
    | list xs => exact absurd rfl (hv xs)
    | null => rfl
    | str s => rfl
    | num n => rfl
    | obj fs => rfl
  · intro fields body s hs hb ho
    simp [classify, hs, hb, ho]

/-- Witness for C9 at a concrete entry and response: the pathway list is
unwrapped to its head, the empty superclass list to the absent marker, and
the scalar class value is kept. -/
theorem C9_unwrap_witness :
    classify
        (fun _ => NPOutcome.ok
          [("pathway_results", .list [.str "Alkaloids"]),
           ("superclass_results", .list []),
           ("class_results", .str "Pyridine alkaloids")])
        "[t]" 3 (.obj [("smiles", .str " CCO ")]) =
      ⟨3, .obj [("smiles", .str " CCO "),
                ("np_taxonomy",
                  .obj [("pathway", .str "Alkaloids"),
                        ("super_class", .null),
                        ("class", .str "Pyridine alkaloids")])],
       "", true, true⟩ := by
  have h := (C9_unwrap
      (fun _ => NPOutcome.ok
        [("pathway_results", .list [.str "Alkaloids"]),
         ("superclass_results", .list []),
         ("class_results", .str "Pyridine alkaloids")])
      "[t]" 3).2.2.2
      [("smiles", .str " CCO ")]
      [("pathway_results", .list [.str "Alkaloids"]),
       ("superclass_results", .list []),
       ("class_results", .str "Pyridine alkaloids")]
      " CCO " (by rfl) (by rfl) (by rfl)
  rw [h]
  rfl

/-- The function `classify` always echoes the index it was submitted with. -/
theorem classify_index (oracle : String → NPOutcome) (ts : String) (i : Nat)
    (e : JValue) : (classify oracle ts i e).index = i := by
  cases e with
  | obj fields =>
    simp only [classify]
    cases jget fields "smiles" with
    | str s =>
      by_cases hb : pyBlank s
      · simp [hb]
      · cases ho : oracle (pyStrip s) <;> simp [hb, ho]
    | null => rfl
    | num n => rfl
    | list xs => rfl
    | obj fs => rfl
  | null => rfl
  | str s => rfl
  | num n => rfl
  | list xs => rfl

/-- One completed future preserves the length of the slot array. -/
theorem npStep_length (oracle : String → NPOutcome) (ts : String)
    (metabolites : List JValue) (results : List (Option JValue)) (i : Nat) :
    (npStep oracle ts metabolites results i).length = results.length := by
  unfold npStep
  cases metabolites[i]? <;> simp

/-- The whole completion loop preserves the length of the slot array. -/
theorem foldl_npStep_length (oracle : String → NPOutcome) (ts : String)
    (metabolites : List JValue) :
    ∀ (order : List Nat) (results : List (Option JValue)),
      (order.foldl (npStep oracle ts metabolites) results).length =
        results.length := by
  intro order
  induction order with
  | nil => intro results; rfl
  | cons j rest ih =>
    intro results
    rw [List.foldl_cons, ih, npStep_length]

/-- Slots whose index never completes are untouched. -/
theorem foldl_npStep_not_mem (oracle : String → NPOutcome) (ts : String)
    (metabolites : List JValue) :
    ∀ (order : List Nat) (results : List (Option JValue)) (i : Nat),
      i ∉ order →
      (order.foldl (npStep oracle ts metabolites) results)[i]? =
        results[i]? := by
  intro order
  induction order with
  | nil => intro results i _; rfl
  | cons j rest ih =>
    intro results i hi
    rw [List.foldl_cons, ih _ _ (fun h => hi (List.mem_cons_of_mem j h))]
    unfold npStep
    cases metabolites[j]? with
    | none => rfl
    | some e =>
      simp only [classify_index]
      exact List.getElem?_set_ne
        (fun h => hi (by rw [← h]; exact List.mem_cons_self j rest))

/-- Any slot whose index completes at least once holds the classification of
the originally submitted entry, regardless of completion order. -/
theorem foldl_npStep_mem (oracle : String → NPOutcome) (ts : String)
    (metabolites : List JValue) :
    ∀ (order : List Nat) (results : List (Option JValue)) (i : Nat)
      (e : JValue),
      i ∈ order → metabolites[i]? = some e →
      results.length = metabolites.length →
      (order.foldl (npStep oracle ts metabolites) results)[i]? =
        some (some (classify oracle ts i e).entry) := by
  intro order
  induction order with
  | nil => intro results i e hi; exact absurd hi (List.not_mem_nil i)
  | cons j rest ih =>
    intro results i e hi he hlen
    rw [List.foldl_cons]
    by_cases hm : i ∈ rest
    · exact ih _ i e hm he (by rw [npStep_length]; exact hlen)
    · have hij : i = j := by
        cases List.mem_cons.1 hi with
        | inl h => exact h
        | inr h => exact absurd h hm
      subst hij
      rw [foldl_npStep_not_mem oracle ts metabolites rest _ i hm]
      unfold npStep
      rw [he]
      simp only [classify_index]
      have hlt : i < results.length := by
        rw [hlen]
        exact (List.getElem?_eq_some.1 he).1
      exact List.getElem?_set_self hlt

/-- C7: for any completion order that is a permutation of the input indices,
the NP stage output has the input length and slot `i` holds the
classification of input `i`. -/
theorem C7_order_preservation (oracle : String → NPOutcome) (ts : String)
    (metabolites : List JValue) (order : List Nat)
    (h : order.Perm (List.range metabolites.length)) :
    (runNPStage oracle ts metabolites order).length = metabolites.length ∧
    ∀ (i : Nat) (e : JValue), metabolites[i]? = some e →
      (runNPStage oracle ts metabolites order)[i]? =
        some (some (classify oracle ts i e).entry) := by
  constructor
  · rw [runNPStage, foldl_npStep_length, List.length_replicate]
  · intro i e he
    have hi : i < metabolites.length := (List.getElem?_eq_some.1 he).1
    have hmem : i ∈ order := h.mem_iff.2 (List.mem_range.2 hi)
    exact foldl_npStep_mem oracle ts metabolites order _ i e hmem he
      (by rw [List.length_replicate])

/-- Witness for C7: a two-entry input processed in reversed completion
order. -/
theorem C7_order_preservation_witness :
    (runNPStage (fun _ => NPOutcome.httpError 500) "[t]"
        [JValue.null, JValue.obj [("smiles", JValue.null)]] [1, 0]).length = 2 ∧
    (runNPStage (fun _ => NPOutcome.httpError 500) "[t]"
        [JValue.null, JValue.obj [("smiles", JValue.null)]] [1, 0])[0]? =
      some (some (classify (fun _ => NPOutcome.httpError 500) "[t]" 0
        JValue.null).entry) := by
  have h := C7_order_preservation (fun _ => NPOutcome.httpError 500) "[t]"
    [JValue.null, JValue.obj [("smiles", JValue.null)]] [1, 0] (by decide)
  exact ⟨h.1, h.2 0 JValue.null rfl⟩

/-- C10: when a submitted element is not a dict, `classify` returns a freshly
built mapping holding only the all-absent `np_taxonomy`, and the stage output
at that position is exactly that mapping: every field of the original element
is dropped. -/
theorem C10_non_dict_entry (oracle : String → NPOutcome) (ts : String)
    (metabolites : List JValue) (order : List Nat) (i : Nat) (v : JValue)
    (h : order.Perm (List.range metabolites.length))
    (hv : metabolites[i]? = some v)
    (hnd : ∀ fields, v ≠ JValue.obj fields) :
    classify oracle ts i v =
      ⟨i, .obj [("np_taxonomy", npAllNone)],
       ts ++ " Index " ++ toString i ++ ": entry is not a dict",
       false, false⟩ ∧
    (runNPStage oracle ts metabolites order)[i]? =
      some (some (JValue.obj [("np_taxonomy", npAllNone)])) := by
  have hc : classify oracle ts i v =
      ⟨i, .obj [("np_taxonomy", npAllNone)],
       ts ++ " Index " ++ toString i ++ ": entry is not a dict",
       false, false⟩ := by
    cases v with
    | obj fields => exact absurd rfl (hnd fields)
    | null => rfl
    | str s => rfl
    | num n => rfl
    | list xs => rfl
  refine ⟨hc, ?_⟩
  have hi : i < metabolites.length := (List.getElem?_eq_some.1 hv).1
  have hmem : i ∈ order := h.mem_iff.2 (List.mem_range.2 hi)
  rw [runNPStage,
    foldl_npStep_mem oracle ts metabolites order _ i v hmem hv
      (by rw [List.length_replicate]), hc]

/-- Witness for C10: a string element is replaced by the bare `np_taxonomy`
mapping. -/
theorem C10_non_dict_entry_witness :
    (runNPStage (fun _ => NPOutcome.httpError 500) "[t]"
        [JValue.str "oops"] [0])[0]? =
      some (some (JValue.obj [("np_taxonomy", npAllNone)])) :=
  (C10_non_dict_entry (fun _ => NPOutcome.httpError 500) "[t]"
    [JValue.str "oops"] [0] 0 (JValue.str "oops") (by decide) rfl
    (fun _ h => JValue.noConfusion h)).2

/-- Prepending a binding cannot make an existing lookup fail. -/
theorem alookup_cons_isSome {α : Type} (d : List (String × α)) (k ik : String)
    (e : α) (h : (alookup d k).isSome) :
    (alookup ((ik, e) :: d) k).isSome := by
  unfold alookup
  by_cases hk : ik = k <;> simp [hk, h]

/-- A successful lookup names one of the stored keys. -/
theorem alookup_some_key {α : Type} :
    ∀ (d : List (String × α)) (s : String) (v : α),
      alookup d s = some v → ∃ p ∈ d, p.1 = s := by
  intro d
  induction d with
  | nil => intro s v h; exact absurd h (by simp [alookup])
  | cons hd tl ih =>
    intro s v h
    obtain ⟨k, w⟩ := hd
    by_cases hk : k = s
    · exact ⟨(k, w), List.mem_cons_self _ _, hk⟩
    · rw [alookup, if_neg hk] at h
      obtain ⟨p, hp, hps⟩ := ih s v h
      exact ⟨p, List.mem_cons_of_mem _ hp, hps⟩

/-- A successful lookup returns a stored pair. -/
theorem alookup_some_mem {α : Type} :
    ∀ (m : List (String × α)) (s : String) (v : α),
      alookup m s = some v → (s, v) ∈ m := by
  intro m
  induction m with
  | nil => intro s v h; exact absurd h (by simp [alookup])
  | cons hd tl ih =>
    intro s v h
    obtain ⟨k, w⟩ := hd
    by_cases hk : k = s
    · rw [alookup, if_pos hk] at h
      subst hk
      rw [Option.some_inj] at h
      subst h
      exact List.mem_cons_self _ _
    · rw [alookup, if_neg hk] at h
      exact List.mem_cons_of_mem _ (ih s v h)

/-- Keys reachable through `mapAppend` are the appended key or an old key. -/
theorem mem_mapAppend :
    ∀ (m : List (String × List String)) (v k : String),
      ∀ p ∈ mapAppend m v k, ∀ x ∈ p.2, x = k ∨ ∃ q ∈ m, x ∈ q.2 := by
  intro m
  induction m with
  | nil =>
    intro v k p hp x hx
    rw [mapAppend, List.mem_singleton] at hp
    subst hp
    rw [List.mem_singleton] at hx
    exact Or.inl hx
  | cons hd tl ih =>
    intro v k p hp x hx
    obtain ⟨w, ks⟩ := hd
    rw [mapAppend] at hp
    by_cases hw : w = v
    · rw [if_pos hw] at hp
      cases List.mem_cons.1 hp with
      | inl h =>
        subst h
        cases List.mem_append.1 hx with
        | inl h2 => exact Or.inr ⟨(w, ks), List.mem_cons_self _ _, h2⟩
        | inr h2 => exact Or.inl (List.mem_singleton.1 h2)
      | inr h =>
        exact Or.inr ⟨p, List.mem_cons_of_mem _ h, hx⟩
    · rw [if_neg hw] at hp
      cases List.mem_cons.1 hp with
      | inl h =>
        subst h
        exact Or.inr ⟨(w, ks), List.mem_cons_self _ _, hx⟩
      | inr h =>
        cases ih v k p h x hx with
        | inl h2 => exact Or.inl h2
        | inr h2 =>
          obtain ⟨q, hq, hxq⟩ := h2
          exact Or.inr ⟨q, List.mem_cons_of_mem _ hq, hxq⟩

/-- The property `IdxOk` persists after a data prepend. -/
theorem IdxOk_cons (d : List (String × LipidEntry))
    (m : List (String × List String)) (ik : String) (e : LipidEntry)
    (hm : IdxOk d m) : IdxOk ((ik, e) :: d) m :=
  fun p hp k hk => alookup_cons_isSome d k ik e (hm p hp k hk)

/-- Updating one index map while prepending the same key to the data keeps
`IdxOk`. -/
theorem indexField_ok (d : List (String × LipidEntry)) (ik : String)
    (e : LipidEntry) (m : List (String × List String)) (fld : Option String)
    (hm : IdxOk d m) : IdxOk ((ik, e) :: d) (indexField m fld ik) := by
  unfold indexField
  split
  next s =>
    split
    next ht =>
      intro p hp k hk
      cases mem_mapAppend m s ik p hp k hk with
      | inl h =>
        subst h
        rw [alookup, if_pos rfl]
        rfl
      | inr h =>
        obtain ⟨q, hq, hkq⟩ := h
        exact alookup_cons_isSome d k ik e (hm q hq k hkq)
    next ht => exact IdxOk_cons d m ik e hm
  next => exact IdxOk_cons d m ik e hm

/-- The step `insertMol` preserves the index invariant. -/
theorem inv_insertMol (ix : RefIndex) (mol : Mol) (h : InvIndex ix) :
    InvIndex (insertMol ix mol) := by
  unfold insertMol
  split
  next => exact h
  next ik =>
    split
    next ht =>
      refine ⟨?_, ?_, ?_, ?_, ?_, ?_, ?_⟩
      · intro p hp
        cases List.mem_cons.1 hp with
        | inl h2 => rw [h2]; exact ht
        | inr h2 => exact h.keysTruthy p h2
      · exact indexField_ok _ _ _ _ _ h.pubchemOk
      · exact indexField_ok _ _ _ _ _ h.chebiOk
      · exact indexField_ok _ _ _ _ _ h.nameOk
      · exact indexField_ok _ _ _ _ _ h.formulaOk
      · exact indexField_ok _ _ _ _ _ h.systematicOk
      · exact indexField_ok _ _ _ _ _ h.smilesOk
    next ht => exact h

/-- The invariant holds for any built index. -/
theorem inv_buildIndexes (mols : List Mol) : InvIndex (buildIndexes mols) := by
  have step : ∀ (ms : List Mol) (ix : RefIndex),
      InvIndex ix → InvIndex (ms.foldl insertMol ix) := by
    intro ms
    induction ms with
    | nil => intro ix h; exact h
    | cons m rest ih =>
      intro ix h
      exact ih (insertMol ix m) (inv_insertMol ix m h)
  refine step mols emptyIndex ?_
  refine ⟨?_, ?_, ?_, ?_, ?_, ?_, ?_⟩ <;> intro p hp <;> exact absurd hp (List.not_mem_nil p)

/-- C1: a record whose inchikey is a key of the built reference index is
matched to that bundle stored under that key with reason `matched by INCHI_KEY`, whatever its
other identifiers hold, and the id of the bundle and taxonomy are assigned. -/
theorem C1_primary_match (mols : List Mol) (e : Metabolite) (s : String)
    (ent : LipidEntry) (h1 : e.inchikey = some s)
    (h2 : alookup (buildIndexes mols).lipid_data s = some ent) :
    matchEntry (buildIndexes mols) e =
      ⟨some ent, "matched by INCHI_KEY", false⟩ ∧
    applyMatch (matchEntry (buildIndexes mols) e) =
      ⟨ent.lm_id, ent.category, ent.main_class, ent.sub_class⟩ := by
  have ht : strTruthy s = true := by
    obtain ⟨p, hp, hps⟩ := alookup_some_key _ s ent h2
    have hkt := (inv_buildIndexes mols).keysTruthy p hp
    rw [hps] at hkt
    exact hkt
  have hm : matchEntry (buildIndexes mols) e =
      ⟨some ent, "matched by INCHI_KEY", false⟩ := by
    simp [matchEntry, h1, ht, h2]
  exact ⟨hm, by rw [hm]; rfl⟩

/-- Witness for C1: a record with primary key `"K1"` and a name/formula pair
that is ambiguous in the fallback indexes still matches `molK1` directly. -/
theorem C1_primary_match_witness :
    matchEntry (buildIndexes molsAmbig) entryPrimary =
      ⟨some (lipidEntryOf molK1), "matched by INCHI_KEY", false⟩ ∧
    applyMatch (matchEntry (buildIndexes molsAmbig) entryPrimary) =
      ⟨some "LM1", some "Fatty Acyls", some "FA01", some "FA0101"⟩ :=
  C1_primary_match molsAmbig entryPrimary "K1" (lipidEntryOf molK1) rfl rfl

/-- Without a primary hit, the match loop runs the fallback. -/
theorem matchEntry_eq_fallback (ix : RefIndex) (e : Metabolite)
    (h : primaryHit ix e = false) : matchEntry ix e = fallbackMatch ix e := by
  unfold matchEntry
  split
  next k heq =>
    have h' : (strTruthy k && (alookup ix.lipid_data k).isSome) = false := by
      unfold primaryHit at h
      rw [heq] at h
      exact h
    by_cases ht : strTruthy k
    · rw [if_pos ht]
      rw [ht, Bool.true_and] at h'
      have hnone : alookup ix.lipid_data k = none := by
        cases halk : alookup ix.lipid_data k with
        | none => rfl
        | some ent => rw [halk] at h'; exact absurd h' (by simp)
      rw [hnone]
    · rw [if_neg ht]
  next heq => rfl

/-- Keys added by one criterion come from the old accumulator or from the
contribution of one criterion. -/
theorem addCrit_keys (acc : FallbackAcc) (cname : String)
    (c : Option (List String)) :
    ∀ k ∈ (addCrit acc cname c).possible_keys,
      k ∈ acc.possible_keys ∨ ∃ ks, c = some ks ∧ k ∈ ks := by
  cases c with
  | none => intro k hk; exact Or.inl hk
  | some ks =>
    intro k hk
    cases List.mem_append.1 hk with
    | inl h => exact Or.inl h
    | inr h => exact Or.inr ⟨ks, rfl, h⟩

/-- A contribution of one criterion only holds keys stored in its index map. -/
theorem contrib_keys (m : List (String × List String)) (fld : Option String)
    (ks : List String) (h : contrib m fld = some ks) :
    ∀ k ∈ ks, ∃ p ∈ m, k ∈ p.2 := by
  cases fld with
  | none => exact absurd h (by simp [contrib])
  | some s =>
    unfold contrib at h
    have h' : (if strTruthy s = true then alookup m s else none) = some ks := h
    by_cases ht : strTruthy s
    · rw [if_pos ht] at h'
      intro k hk
      exact ⟨(s, ks), alookup_some_mem m s ks h', hk⟩
    · rw [if_neg ht] at h'
      exact absurd h' (by simp)

/-- Every candidate key of the fallback occurs in one of the six indexes. -/
theorem fallbackAcc_keys (ix : RefIndex) (e : Metabolite) :
    ∀ k ∈ (fallbackAcc ix e).possible_keys, InIdx ix k := by
  intro k hk
  simp only [fallbackAcc] at hk
  rcases addCrit_keys _ "SMILES" _ k hk with h5 | ⟨ks, hc, hks⟩
  · rcases addCrit_keys _ "SYSTEMATIC_NAME" _ k h5 with h4 | ⟨ks, hc, hks⟩
    · rcases addCrit_keys _ "FORMULA" _ k h4 with h3 | ⟨ks, hc, hks⟩
      · rcases addCrit_keys _ "CHEBI_ID" _ k h3 with h2 | ⟨ks, hc, hks⟩
        · rcases addCrit_keys _ "NAME" _ k h2 with h1 | ⟨ks, hc, hks⟩
          · rcases addCrit_keys _ "PUBCHEM_CID" _ k h1 with h0 | ⟨ks, hc, hks⟩
            · exact absurd h0 (List.not_mem_nil k)
            · exact Or.inl (contrib_keys _ _ _ hc k hks)
          · exact Or.inr (Or.inr (Or.inl (contrib_keys _ _ _ hc k hks)))
        · exact Or.inr (Or.inl (contrib_keys _ _ _ hc k hks))
      · exact Or.inr (Or.inr (Or.inr (Or.inl (contrib_keys _ _ _ hc k hks))))
    · exact Or.inr (Or.inr (Or.inr (Or.inr (Or.inl
        (contrib_keys _ _ _ hc k hks)))))
  · exact Or.inr (Or.inr (Or.inr (Or.inr (Or.inr
      (contrib_keys _ _ _ hc k hks)))))

/-- With the invariant, any indexed key can be looked up in `lipid_data`. -/
theorem InIdx_isSome (ix : RefIndex) (k : String) (h : InvIndex ix)
    (hk : InIdx ix k) : (alookup ix.lipid_data k).isSome := by
  rcases hk with ⟨p, hp, hkp⟩ | ⟨p, hp, hkp⟩ | ⟨p, hp, hkp⟩ | ⟨p, hp, hkp⟩ |
    ⟨p, hp, hkp⟩ | ⟨p, hp, hkp⟩
  · exact h.pubchemOk p hp k hkp
  · exact h.chebiOk p hp k hkp
  · exact h.nameOk p hp k hkp
  · exact h.formulaOk p hp k hkp
  · exact h.systematicOk p hp k hkp
  · exact h.smilesOk p hp k hkp

/-- C2: without a primary hit, the fallback unions the hash keys found under
the contributing weak identifiers; with at least 2 contributing criteria and
exactly 1 distinct candidate key it matches that bundle stored under that key, tagged with
the criteria; with at least 2 criteria and more than 1 key it records the
ambiguous error and no match; with fewer than 2 criteria it records no
match. -/
theorem C2_fallback_policy (mols : List Mol) (e : Metabolite)
    (h : primaryHit (buildIndexes mols) e = false) :
    (∀ k, 2 ≤ (fallbackAcc (buildIndexes mols) e).criteria.length →
      (fallbackAcc (buildIndexes mols) e).possible_keys.dedup = [k] →
      ∃ ent, alookup (buildIndexes mols).lipid_data k = some ent ∧
        matchEntry (buildIndexes mols) e =
          ⟨some ent,
           "fallback match by: " ++ String.intercalate ", "
             (fallbackAcc (buildIndexes mols) e).criteria,
           false⟩) ∧
    (2 ≤ (fallbackAcc (buildIndexes mols) e).criteria.length →
      1 < (fallbackAcc (buildIndexes mols) e).possible_keys.dedup.length →
      matchEntry (buildIndexes mols) e = ⟨none, "no match", true⟩) ∧
    ((fallbackAcc (buildIndexes mols) e).criteria.length < 2 →
      matchEntry (buildIndexes mols) e = ⟨none, "no match", false⟩) := by
  have hme := matchEntry_eq_fallback (buildIndexes mols) e h
  refine ⟨?_, ?_, ?_⟩
  · intro k h2 hded
    have hkd : k ∈ (fallbackAcc (buildIndexes mols) e).possible_keys.dedup := by
      rw [hded]
      exact List.mem_singleton_self k
    have hkmem := List.dedup_subset _ hkd
    have hsome := InIdx_isSome _ k (inv_buildIndexes mols)
      (fallbackAcc_keys _ _ k hkmem)
    obtain ⟨ent, hent⟩ := Option.isSome_iff_exists.1 hsome
    refine ⟨ent, hent, ?_⟩
    rw [hme]
    simp only [fallbackMatch]
    rw [if_pos ⟨h2, by rw [hded]; rfl⟩, hded]
    simp [hent]
  · intro h2 hgt
    rw [hme]
    simp only [fallbackMatch]
    rw [if_neg (fun hc => by omega), if_pos ⟨h2, hgt⟩]
  · intro hlt
    rw [hme]
    simp only [fallbackMatch]
    rw [if_neg (fun hc => by omega), if_neg (fun hc => by omega)]

/-- Witness for C2: name and formula both point at `molK1` only, so the
fallback matches with both criteria tagged. -/
theorem C2_fallback_policy_witness :
    ∃ ent, alookup (buildIndexes molsSingle).lipid_data "K1" = some ent ∧
      matchEntry (buildIndexes molsSingle) entryFallback =
        ⟨some ent,
         "fallback match by: " ++ String.intercalate ", "
           (fallbackAcc (buildIndexes molsSingle) entryFallback).criteria,
         false⟩ :=
  (C2_fallback_policy molsSingle entryFallback rfl).1 "K1" (by decide) (by decide)

/-- Counterexample to C3 as stated: on a concrete ambiguous record the run
counters show `errors = 1` but also `misses = 1` — the ambiguous record IS
additionally counted as a miss, because the ambiguous branch leaves `match`
unset and the subsequent no-match branch increments `misses`. -/
theorem C3_counterexample :
    (matchEntry (buildIndexes molsAmbig) entryAmbiguous).ambiguous = true ∧
    runStats (buildIndexes molsAmbig) [entryAmbiguous] = ⟨0, 1, 1⟩ ∧
    ¬ (runStats (buildIndexes molsAmbig) [entryAmbiguous]).misses = 0 := by
  refine ⟨by decide, by decide, by decide⟩

/-- An ambiguous fallback outcome never carries a match. -/
theorem fallbackMatch_amb_matched_none (ix : RefIndex) (e : Metabolite)
    (h : (fallbackMatch ix e).ambiguous = true) :
    (fallbackMatch ix e).matched = none := by
  simp only [fallbackMatch] at h ⊢
  split at h
  next hc =>
    split at h
    next k hk => exact absurd h (by simp)
    next hk => exact absurd h (by simp)
  next hc =>
    split at h
    next hc2 =>
      rw [if_neg hc, if_pos hc2]
    next hc2 => exact absurd h (by simp)

/-- An ambiguous match-loop outcome never carries a match. -/
theorem matchEntry_amb_matched_none (ix : RefIndex) (e : Metabolite)
    (h : (matchEntry ix e).ambiguous = true) :
    (matchEntry ix e).matched = none := by
  unfold matchEntry at h ⊢
  split at h
  next k heq =>
    by_cases ht : strTruthy k
    · rw [if_pos ht] at h ⊢
      cases halk : alookup ix.lipid_data k with
      | some ent => rw [halk] at h; exact absurd h (by simp)
      | none =>
        rw [halk] at h
        exact fallbackMatch_amb_matched_none ix e h
    · rw [if_neg ht] at h ⊢
      exact fallbackMatch_amb_matched_none ix e h
  next heq =>
    exact fallbackMatch_amb_matched_none ix e h

/-- C3 (amended): an ambiguous fallback increments the dedicated error tally
AND the miss tally (the record is also counted as a miss), while its `lm_id`
and all three `lm_taxonomy` levels are set to the absent marker. -/
theorem C3_ambiguous_accounting (ix : RefIndex) (e : Metabolite)
    (s : MatchStats) (h : (matchEntry ix e).ambiguous = true) :
    stepStats ix s e = ⟨s.«matches», s.misses + 1, s.errors + 1⟩ ∧
    applyMatch (matchEntry ix e) = ⟨none, none, none, none⟩ := by
  have hm := matchEntry_amb_matched_none ix e h
  constructor
  · simp [stepStats, h, hm]
  · unfold applyMatch
    rw [hm]

/-- Witness for C3 (amended) at the concrete ambiguous record. -/
theorem C3_ambiguous_accounting_witness :
    stepStats (buildIndexes molsAmbig) ⟨0, 0, 0⟩ entryAmbiguous = ⟨0, 1, 1⟩ ∧
    applyMatch (matchEntry (buildIndexes molsAmbig) entryAmbiguous) =
      ⟨none, none, none, none⟩ :=
  C3_ambiguous_accounting (buildIndexes molsAmbig) entryAmbiguous ⟨0, 0, 0⟩
    (by decide)

/-- The head of a stripped string is never whitespace. -/
theorem pyStripChars_head (l : List Char) (c : Char)
    (hc : (pyStripChars l).head? = some c) : c.isWhitespace = false := by
  unfold pyStripChars at hc
  have hR : ((l.dropWhile Char.isWhitespace).rdropWhile Char.isWhitespace) <+:
      (l.dropWhile Char.isWhitespace) := by
    unfold List.rdropWhile
    exact List.reverse_suffix.mp
      (by rw [List.reverse_reverse]; exact List.dropWhile_suffix _)
  obtain ⟨t, ht⟩ := hR
  have hRne :
      (l.dropWhile Char.isWhitespace).rdropWhile Char.isWhitespace ≠ [] := by
    intro h0
    rw [h0] at hc
    exact Option.noConfusion hc
  have hAh : (l.dropWhile Char.isWhitespace).head? = some c := by
    rw [← ht, List.head?_append_of_ne_nil _ hRne]
    exact hc
  have hAne : l.dropWhile Char.isWhitespace ≠ [] := by
    intro h0
    rw [h0] at hAh
    exact Option.noConfusion hAh
  have hhd := List.head_dropWhile_not Char.isWhitespace l hAne
  have hch : (l.dropWhile Char.isWhitespace).head hAne = c := by
    have h2 := hAh
    rw [List.head?_eq_head hAne] at h2
    exact Option.some_inj.mp h2
  rw [hch] at hhd
  simpa using hhd

/-- The last character of a stripped string is never whitespace. -/
theorem pyStripChars_last (l : List Char) (c : Char)
    (hc : (pyStripChars l).getLast? = some c) : c.isWhitespace = false := by
  unfold pyStripChars at hc
  have hRne :
      (l.dropWhile Char.isWhitespace).rdropWhile Char.isWhitespace ≠ [] := by
    intro h0
    rw [h0] at hc
    exact Option.noConfusion hc
  have hlast := List.rdropWhile_last_not Char.isWhitespace
    (l.dropWhile Char.isWhitespace) hRne
  have hch :
      ((l.dropWhile Char.isWhitespace).rdropWhile Char.isWhitespace).getLast
        hRne = c := by
    have h2 := hc
    rw [List.getLast?_eq_getLast _ hRne] at h2
    exact Option.some_inj.mp h2
  rw [hch] at hlast
  simpa using hlast

/-- Normalisation `normText` yields the absent marker or a non-empty edge-trimmed string. -/
theorem normText_scalarOk (o : Option String) : ScalarOk (normText o) := by
  cases o with
  | none => exact Or.inl rfl
  | some s =>
    show ScalarOk (if pyBlank s = true then none else some (pyStrip s))
    by_cases hb : pyBlank s
    · rw [if_pos hb]
      exact Or.inl rfl
    · rw [if_neg hb]
      refine Or.inr ⟨pyStrip s, rfl, ?_, ?_, ?_⟩
      · intro h0
        apply hb
        unfold pyBlank
        have hd := congrArg String.data h0
        simp only [pyStrip] at hd
        rw [List.isEmpty_iff]
        exact hd
      · intro c hc
        exact pyStripChars_head s.data c hc
      · intro c hc
        exact pyStripChars_last s.data c hc

/-- Extraction `locList` yields the absent marker or a non-empty list of non-empty
edge-trimmed strings. -/
theorem locList_ok (o : Option (List (Option String))) : LocOk (locList o) := by
  cases o with
  | none => exact Or.inl rfl
  | some xs =>
    show LocOk (if (xs.filterMap normText).isEmpty = true then none
      else some (xs.filterMap normText))
    by_cases he : (xs.filterMap normText).isEmpty
    · rw [if_pos he]
      exact Or.inl rfl
    · rw [if_neg he]
      refine Or.inr ⟨xs.filterMap normText, rfl, ?_, ?_⟩
      · intro h0
        rw [← List.isEmpty_iff] at h0
        exact he h0
      · intro s hs
        obtain ⟨a, _, ha⟩ := List.mem_filterMap.1 hs
        cases normText_scalarOk a with
        | inl h0 => rw [h0] at ha; exact Option.noConfusion ha
        | inr h1 =>
          obtain ⟨s2, hs2, hne, hws⟩ := h1
          rw [hs2] at ha
          rw [Option.some_inj] at ha
          rw [← ha]
          exact ⟨hne, hws⟩

/-- C6: every optional scalar field of an ingested record is either absent or
a non-empty string without edge whitespace; each of the three location lists
is either absent or a non-empty list of such strings. -/
theorem C6_absent_normalization (classy : String → Option Taxonomy5)
    (m : XmlMetabolite) :
    (∀ k, ScalarOk ((parse_metabolite classy m).data k)) ∧
    LocOk ((parse_metabolite classy m).cellular_locations) ∧
    LocOk ((parse_metabolite classy m).biospecimen_locations) ∧
    LocOk ((parse_metabolite classy m).tissue_locations) := by
  obtain ⟨sc, tax, bio⟩ := m
  refine ⟨?_, ?_, ?_, ?_⟩
  · intro k
    show ScalarOk (if k ∈ key_order then normText (sc k) else none)
    by_cases hk : k ∈ key_order
    · rw [if_pos hk]
      exact normText_scalarOk (sc k)
    · rw [if_neg hk]
      exact Or.inl rfl
  · cases bio with
    | none => exact Or.inl rfl
    | some b => exact locList_ok b.cellular_locations
  · cases bio with
    | none => exact Or.inl rfl
    | some b => exact locList_ok b.biospecimen_locations
  · cases bio with
    | none => exact Or.inl rfl
    | some b => exact locList_ok b.tissue_locations

/-- Witness for C6 at a concrete element: the `name` scalar of a concrete
parse is well-formed. -/
theorem C6_absent_normalization_witness :
    ScalarOk ((parse_metabolite classyNone xmlNoTax).data "name") :=
  (C6_absent_normalization classyNone xmlNoTax).1 "name"

/-- Counterexample to C5 as stated: a concrete element with NO taxonomy
sub-group at all (not "present but blank") and a valid inchikey still causes
the ClassyFire client to be invoked. -/
theorem C5_counterexample :
    xmlNoTax.taxonomy = none ∧
    (parse_metabolite classyNone xmlNoTax).calledClassy = true :=
  ⟨rfl, by decide⟩

/-- C5 (amended): the ClassyFire client is invoked exactly when every
extracted taxonomy level is blank — whether the sub-group is absent or
present with only blank levels — and the normalised inchikey is truthy and
not `"NONE"`; whenever some embedded level is non-blank, no call is made and
the extracted taxonomy is kept verbatim. -/
theorem C5_classifier_delegation (classy : String → Option Taxonomy5)
    (m : XmlMetabolite) :
    ((parse_metabolite classy m).calledClassy =
      (allBlank (extractTax m.taxonomy) &&
       inchikeyEligible (normText (m.scalars "inchikey")))) ∧
    (allBlank (extractTax m.taxonomy) = false →
      (parse_metabolite classy m).taxonomy = extractTax m.taxonomy ∧
      (parse_metabolite classy m).calledClassy = false) := by
  obtain ⟨sc, tax, bio⟩ := m
  have hik : (if "inchikey" ∈ key_order then normText (sc "inchikey") else none) =
      normText (sc "inchikey") := if_pos (by decide)
  simp only [parse_metabolite, hik]
  constructor
  · by_cases hb : allBlank (extractTax tax)
    · by_cases he : inchikeyEligible (normText (sc "inchikey"))
      · cases hn : normText (sc "inchikey") with
        | none =>
          rw [hn] at he
          simp [inchikeyEligible] at he
        | some s =>
          rw [hn] at he
          cases hcl : classy s with
          | none => simp [hb, he, hn, hcl]
          | some ct => simp [hb, he, hn, hcl]
      · simp [hb, he]
    · simp [hb]
  · intro hb
    constructor
    · simp [hb]
    · simp [hb]

/-- Witness for C5 (amended): with an embedded non-blank kingdom the parse
keeps the extracted taxonomy and performs no remote call. -/
theorem C5_classifier_delegation_witness :
    (parse_metabolite classyNone xmlWithTax).taxonomy =
      extractTax xmlWithTax.taxonomy ∧
    (parse_metabolite classyNone xmlWithTax).calledClassy = false :=
  (C5_classifier_delegation classyNone xmlWithTax).2 (by decide)

end Metabo
